import Mathlib

/-!
Verification of the PlexCache-R core against its specification.

Python strings are modelled as `List Char`; the Python string methods used by
the source (`startswith`, `endswith`, `rstrip('/')`, `split('/')`, `in`,
`lower`) are given as executable Lean functions below.  Stateful code
(`MaintenanceRunner`, `SingleInstanceLock`) is modelled by explicit state
passing; OS interactions (subprocess probes, `flock`, file copies) are
modelled by environment parameters that record each call's outcome.
-/

namespace PlexCache

/-! ## Python string primitives -/

/-- Python `s.startswith(pre)` on `List Char`. -/
def startswith : List Char → List Char → Bool
  | [], _ => true
  | _ :: _, [] => false
  | a :: as, b :: bs => a == b && startswith as bs

/-- Python `s.endswith(suf)`: a suffix test, via reversal. -/
def endswith (suf s : List Char) : Bool :=
  startswith suf.reverse s.reverse

/-- Python `s.rstrip('/')`: drop all trailing `'/'` characters. -/
def rstripSlash : List Char → List Char
  | [] => []
  | c :: cs =>
    match rstripSlash cs with
    | [] => if c = '/' then [] else [c]
    | r => c :: r

/-- Python `s.split('/')`: split on every `'/'`, keeping empty segments
(`''.split('/') == ['']`). -/
def splitSlash : List Char → List (List Char)
  | [] => [[]]
  | c :: cs =>
    if c = '/' then [] :: splitSlash cs
    else
      match splitSlash cs with
      | [] => [[c]]
      | h :: t => (c :: h) :: t

/-- Python `needle in hay` substring test. -/
def containsSub (needle : List Char) : List Char → Bool
  | [] => startswith needle []
  | c :: cs => startswith needle (c :: cs) || containsSub needle cs

/-- Boolean `c ≠ '/'` predicate used with `takeWhile`. -/
def notSlash (c : Char) : Bool := c != '/'

theorem startswith_iff (a : List Char) : ∀ l, startswith a l = true ↔ ∃ t, l = a ++ t := by
  induction a with
  | nil => intro l; simp [startswith]
  | cons x as ih =>
    intro l
    cases l with
    | nil => simp [startswith]
    | cons b bs =>
      simp only [startswith, Bool.and_eq_true, beq_iff_eq, ih, List.cons_append,
        List.cons.injEq]
      constructor
      · rintro ⟨rfl, t, rfl⟩; exact ⟨t, rfl, rfl⟩
      · rintro ⟨t, rfl, rfl⟩; exact ⟨rfl, t, rfl⟩

theorem splitSlash_ne_nil : ∀ l : List Char, splitSlash l ≠ [] := by
  intro l
  induction l with
  | nil => simp [splitSlash]
  | cons c cs ih =>
    by_cases hc : c = '/'
    · simp [splitSlash, hc]
    · rcases hsp : splitSlash cs with _ | ⟨h, t⟩
      · exact absurd hsp ih
      · simp [splitSlash, hc, hsp]

theorem splitSlash_headD (q : List Char) :
    (splitSlash q).headD [] = q.takeWhile notSlash := by
  induction q with
  | nil => simp [splitSlash]
  | cons c cs ih =>
    by_cases hc : c = '/'
    · simp [splitSlash, hc, List.takeWhile_cons, notSlash]
    · rcases hsp : splitSlash cs with _ | ⟨h, t⟩
      · exact absurd hsp (splitSlash_ne_nil cs)
      · rw [hsp] at ih
        simp only [List.headD_cons] at ih
        simp [splitSlash, hc, hsp, List.takeWhile_cons, notSlash, ih]

theorem splitSlash_seg (seg : List Char) (rest : List Char) (h : '/' ∉ seg) :
    splitSlash (seg ++ '/' :: rest) = seg :: splitSlash rest := by
  induction seg with
  | nil => simp [splitSlash]
  | cons c s ih =>
    have hc : c ≠ '/' := fun hcc => h (hcc ▸ List.mem_cons_self c s)
    have hs : '/' ∉ s := fun hm => h (List.mem_cons_of_mem c hm)
    simp [splitSlash, hc, ih hs]

theorem rstripSlash_append (a b : List Char) :
    rstripSlash (a ++ b) =
      if rstripSlash b = [] then rstripSlash a else a ++ rstripSlash b := by
  induction a with
  | nil => split <;> simp_all [rstripSlash]
  | cons c a' ih =>
    by_cases hb : rstripSlash b = []
    · rw [if_pos hb] at ih ⊢
      simp [rstripSlash, ih]
    · rw [if_neg hb] at ih ⊢
      have hne : a' ++ rstripSlash b ≠ [] := by
        simp [hb]
      rcases hr : a' ++ rstripSlash b with _ | ⟨x, xs⟩
      · exact absurd hr hne
      · simp [rstripSlash, ih, hr]

theorem rstripSlash_eq_nil (l : List Char) :
    rstripSlash l = [] ↔ ∀ c ∈ l, c = '/' := by
  induction l with
  | nil => simp [rstripSlash]
  | cons c cs ih =>
    rcases hr : rstripSlash cs with _ | ⟨x, xs⟩
    · rw [hr] at ih
      simp only [rstripSlash, hr]
      constructor
      · intro h
        by_cases hc : c = '/'
        · intro y hy
          rcases List.mem_cons.mp hy with rfl | hy'
          · exact hc
          · exact ih.mp rfl y hy'
        · simp [hc] at h
      · intro h
        simp [h c (List.mem_cons_self c cs)]
    · rw [hr] at ih
      simp only [rstripSlash, hr]
      constructor
      · intro h; exact absurd h (by simp)
      · intro h
        have hall : ∀ y ∈ cs, y = '/' := fun y hy => h y (List.mem_cons_of_mem c hy)
        exact absurd (ih.mpr hall) (by simp)

theorem takeWhile_all_slash (l : List Char) (h : ∀ c ∈ l, c = '/') :
    l.takeWhile notSlash = [] := by
  cases l with
  | nil => rfl
  | cons c cs =>
    have : c = '/' := h c (List.mem_cons_self c cs)
    simp [List.takeWhile_cons, notSlash, this]

theorem takeWhile_rstripSlash (l : List Char) :
    (rstripSlash l).takeWhile notSlash = l.takeWhile notSlash := by
  induction l with
  | nil => rfl
  | cons c cs ih =>
    rcases hr : rstripSlash cs with _ | ⟨x, xs⟩
    · have hall : ∀ y ∈ cs, y = '/' := (rstripSlash_eq_nil cs).mp hr
      have hcs : cs.takeWhile notSlash = [] := takeWhile_all_slash cs hall
      by_cases hc : c = '/'
      · simp [rstripSlash, hr, hc, List.takeWhile_cons, notSlash]
      · simp [rstripSlash, hr, hc, List.takeWhile_cons, notSlash, hcs]
    · rw [hr] at ih
      by_cases hc : c = '/'
      · simp [rstripSlash, hr, hc, List.takeWhile_cons, notSlash]
      · simp [rstripSlash, hr, hc, List.takeWhile_cons, notSlash, ih]

theorem rstripSlash_last (l : List Char) :
    rstripSlash l = [] ∨ ∃ l' c, rstripSlash l = l' ++ [c] ∧ c ≠ '/' := by
  induction l with
  | nil => exact Or.inl rfl
  | cons c cs ih =>
    rcases hr : rstripSlash cs with _ | ⟨x, xs⟩
    · by_cases hc : c = '/'
      · exact Or.inl (by simp [rstripSlash, hr, hc])
      · exact Or.inr ⟨[], c, by simp [rstripSlash, hr, hc], hc⟩
    · rcases ih with h0 | ⟨l', d, hl, hd⟩
      · exact absurd (hr ▸ h0) (by simp)
      · refine Or.inr ⟨c :: l', d, ?_, hd⟩
        simp [rstripSlash, hr, ← hl, hr]

theorem takeWhile_append_slash (u v : List Char) (hu : ∀ c ∈ u, c ≠ '/') :
    (u ++ '/' :: v).takeWhile notSlash = u := by
  induction u with
  | nil => simp [List.takeWhile_cons, notSlash]
  | cons c u' ih =>
    have hc : c ≠ '/' := hu c (List.mem_cons_self c u')
    have hu' : ∀ x ∈ u', x ≠ '/' := fun x hx => hu x (List.mem_cons_of_mem c hx)
    simp [List.takeWhile_cons, notSlash, hc, ih hu']

theorem dropWhile_head_false {l : List Char} {c : Char} {v : List Char}
    (h : l.dropWhile notSlash = c :: v) : notSlash c = false := by
  induction l with
  | nil => simp [List.dropWhile] at h
  | cons a l' ih =>
    by_cases ha : notSlash a
    · exact ih (by simpa [List.dropWhile_cons, ha] using h)
    · rw [List.dropWhile_cons, if_neg (by simp [ha])] at h
      cases h
      simpa using ha

theorem endswith_slash_iff (share s : List Char) (hsh : ∀ c ∈ share, c ≠ '/')
    (hs : '/' ∈ s) :
    (endswith ('/' :: share) s = true ↔ s.reverse.takeWhile notSlash = share.reverse) := by
  unfold endswith
  rw [startswith_iff, List.reverse_cons]
  constructor
  · rintro ⟨t, ht⟩
    rw [ht, List.append_assoc]
    exact takeWhile_append_slash _ _ (fun c hc => hsh c (List.mem_reverse.mp hc))
  · intro htw
    have hsplit := List.takeWhile_append_dropWhile notSlash s.reverse
    rcases hd : s.reverse.dropWhile notSlash with _ | ⟨c, v⟩
    · rw [htw, hd, List.append_nil] at hsplit
      have hmem : '/' ∈ share.reverse := hsplit ▸ List.mem_reverse.mpr hs
      exact absurd rfl (hsh '/' (List.mem_reverse.mp hmem))
    · have hc : notSlash c = false := dropWhile_head_false hd
      have hceq : c = '/' := by simpa [notSlash] using hc
      refine ⟨v, ?_⟩
      rw [← hsplit, htw, hd, hceq, List.append_assoc]
      rfl

/-- Reversed take of the non-slash tail: the characters of `l` after its last
`'/'` (all of `l` when it has no slash). -/
def revLastComp (l : List Char) : List Char := (l.reverse.takeWhile notSlash).reverse

/-- Final path component of a mountpoint, trailing slashes ignored: the
natural-language notion used by the claim (and spec) for the fallback match. -/
def lastPathComponent (mp : List Char) : List Char := revLastComp (rstripSlash mp)

theorem rstripSlash_cons_slash {m' : List Char} (hne : rstripSlash ('/' :: m') ≠ []) :
    ∃ r, rstripSlash ('/' :: m') = '/' :: r := by
  rcases hr : rstripSlash m' with _ | ⟨x, xs⟩
  · exact absurd (by simp [rstripSlash, hr]) hne
  · exact ⟨x :: xs, by simp [rstripSlash, hr]⟩

/-- Equivalence between the source's match condition
`mountpoint.rstrip('/').endswith('/' + share_name)` and the claim's
"mountpoint's final path component equals the share name", for an absolute,
not-all-slash mountpoint and a slash-free share name. -/
theorem match_condition_iff (share mp : List Char) (hsh : ∀ c ∈ share, c ≠ '/')
    (habs : ∃ m', mp = '/' :: m') (hne : rstripSlash mp ≠ []) :
    (endswith ('/' :: share) (rstripSlash mp) = true ↔ lastPathComponent mp = share) := by
  obtain ⟨m', rfl⟩ := habs
  obtain ⟨r, hr⟩ := rstripSlash_cons_slash hne
  have hmem : '/' ∈ rstripSlash ('/' :: m') := by rw [hr]; exact List.mem_cons_self _ _
  rw [endswith_slash_iff share _ hsh hmem]
  unfold lastPathComponent revLastComp
  rw [List.reverse_eq_iff]

theorem any_congr_mem {α : Type} (l : List α) (f g : α → Bool)
    (h : ∀ x ∈ l, f x = g x) : l.any f = l.any g := by
  induction l with
  | nil => rfl
  | cons a t ih =>
    simp only [List.any_cons, h a (List.mem_cons_self a t),
      ih (fun x hx => h x (List.mem_cons_of_mem a hx))]

/-! ## PathResolver: `get_array_direct_path` (src/system_utils.py:34-62) -/

/-- Union-mount root `'/mnt/user/'`. -/
def unionRoot : List Char := "/mnt/user/".toList

/-- Array-direct root `'/mnt/user0/'`. -/
def arrayRoot : List Char := "/mnt/user0/".toList

/-- Embedding of `get_array_direct_path` (src/system_utils.py:34-62).  The
global `_zfs_user_prefixes` set is passed explicitly as `zfsPrefixes`; the
Python `for` loop over the set returning on the first matching element is the
`List.any` test (every match returns the same value, so iteration order is
irrelevant). -/
def get_array_direct_path (zfsPrefixes : List (List Char)) (user_share_path : List Char) :
    List Char :=
  if startswith unionRoot user_share_path then
    if zfsPrefixes.any (fun pre => startswith pre user_share_path) then
      user_share_path
    else
      arrayRoot ++ user_share_path.drop unionRoot.length
  else
    user_share_path

/-- C1: `get_array_direct_path` implements exactly the three-way case
analysis of the spec: paths not under `'/mnt/user/'` are returned unchanged;
union-mount paths matching a registered ZFS prefix are returned unchanged;
every other union-mount path is mapped to `'/mnt/user0/'` concatenated with
the exact suffix of the path after `'/mnt/user/'`. -/
theorem c1_get_array_direct_path_cases (zfs : List (List Char)) (p : List Char) :
    (startswith unionRoot p = false → get_array_direct_path zfs p = p) ∧
    (startswith unionRoot p = true →
      (∃ pre ∈ zfs, startswith pre p = true) → get_array_direct_path zfs p = p) ∧
    (startswith unionRoot p = true →
      (∀ pre ∈ zfs, startswith pre p = false) →
      get_array_direct_path zfs p = arrayRoot ++ p.drop unionRoot.length) := by
  refine ⟨fun h => ?_, fun h hz => ?_, fun h hz => ?_⟩
  · simp [get_array_direct_path, h]
  · have : zfs.any (fun pre => startswith pre p) = true := by
      rw [List.any_eq_true]; exact hz
    simp [get_array_direct_path, h, this]
  · have : zfs.any (fun pre => startswith pre p) = false := by
      rw [Bool.eq_false_iff]
      intro hc
      rw [List.any_eq_true] at hc
      obtain ⟨pre, hmem, hpre⟩ := hc
      exact absurd hpre (by simp [hz pre hmem])
    simp [get_array_direct_path, h, this]

/-- C1 witness: the third case evaluated on the concrete path
`'/mnt/user/tv/show.mkv'` with a non-matching ZFS prefix set. -/
theorem c1_witness :
    get_array_direct_path ["/mnt/user/zpool/".toList] "/mnt/user/tv/show.mkv".toList =
      arrayRoot ++ ("/mnt/user/tv/show.mkv".toList).drop unionRoot.length :=
  (c1_get_array_direct_path_cases ["/mnt/user/zpool/".toList]
      "/mnt/user/tv/show.mkv".toList).2.2 (by decide) (by decide)

/-! ## ZfsDetector: `detect_zfs` (src/system_utils.py:65-131)

The `df -T` subprocess call is modelled by a `ProbeResult` environment value;
`/proc/mounts` is modelled as `Option (List (List (List Char)))`: `none` when
reading raises `OSError`/`IOError`, otherwise the list of whitespace-split
field lists of each line. -/

/-- Outcome of `subprocess.run(['df', '-T', path], ..., timeout=5)`. -/
inductive ProbeResult where
  | ok (returncode : Int) (stdout : List Char)
  | timedOut
  | fileNotFound
  | osError

/-- The `timeout=5` argument of the `df -T` probe (src/system_utils.py:84). -/
def df_timeout_seconds : Nat := 5

/-- Characters of `'zfs'`. -/
def zfsStr : List Char := "zfs".toList

/-- Primary check `result.returncode == 0 and 'zfs' in result.stdout.lower()`
(src/system_utils.py:86); a timeout, `FileNotFoundError` or `OSError` is
caught by the `except` clause and falls through (src/system_utils.py:88-89). -/
def df_probe_reports_zfs : ProbeResult → Bool
  | .ok rc out => rc == 0 && containsSub zfsStr (out.map Char.toLower)
  | _ => false

/-- Embedding of `_check_zfs_mount_for_share` (src/system_utils.py:103-131):
scan the mount table for an entry with at least three fields whose filesystem
type is exactly `'zfs'` and with `mountpoint.rstrip('/').endswith('/' +
share_name)`; an unreadable `/proc/mounts` (`none`) yields `False`. -/
def check_zfs_mount_for_share (mounts : Option (List (List (List Char))))
    (share_name : List Char) : Bool :=
  match mounts with
  | none => false
  | some lines =>
    lines.any fun fields =>
      match fields with
      | _ :: mountpoint :: fs_type :: _ =>
        fs_type == zfsStr && endswith ('/' :: share_name) (rstripSlash mountpoint)
      | _ => false

/-- Embedding of `detect_zfs` (src/system_utils.py:65-100): primary `df -T`
probe, then — for paths under `'/mnt/user/'` — the share name is read as
`path.rstrip('/').split('/')[3]` (guarded by `len(parts) >= 4`) and checked
against the mount table. -/
def detect_zfs (probe : ProbeResult) (mounts : Option (List (List (List Char))))
    (path : List Char) : Bool :=
  if df_probe_reports_zfs probe then true
  else if startswith unionRoot path then
    match (splitSlash (rstripSlash path)).drop 3 with
    | share_name :: _ => check_zfs_mount_for_share mounts share_name
    | [] => false
  else false

/-- Claim C2's description of `detect_zfs`, written from the claim's words
(the spec-side definition of the refinement comparison): true when the
primary probe reports ZFS; otherwise, only for paths under the union-mount
root, the share name is the path component immediately following the mount
root, and the fallback is true exactly on a mount-table entry whose
filesystem type is ZFS and whose mountpoint's final path component equals the
share name; false in every other case. -/
def detect_zfs_claim (probe : ProbeResult) (mounts : Option (List (List (List Char))))
    (path : List Char) : Bool :=
  if df_probe_reports_zfs probe then true
  else if startswith unionRoot path then
    let share_name := (path.drop unionRoot.length).takeWhile notSlash
    match mounts with
    | none => false
    | some lines =>
      lines.any fun fields =>
        match fields with
        | _ :: mountpoint :: fs_type :: _ =>
          fs_type == zfsStr && (lastPathComponent mountpoint == share_name)
        | _ => false
  else false

/-- Well-formedness of the modelled `/proc/mounts` table: every ZFS-typed
entry has an absolute mountpoint that is not a bare run of slashes.  Entries
of any other filesystem type — in particular the root entry `/` present in
every real mount table — are unconstrained.  The condition therefore holds of
a real `/proc/mounts` whenever no ZFS filesystem is mounted at `/` itself
(true on the Unraid systems this code targets, whose rootfs is a ramfs; only
a ZFS-on-root system escapes it): ZFS dataset mountpoints are absolute
paths. -/
def WFMountTable (mounts : Option (List (List (List Char)))) : Prop :=
  ∀ lines, mounts = some lines → ∀ fields ∈ lines, ∀ dev mp rest,
    fields = dev :: mp :: zfsStr :: rest → (∃ m', mp = '/' :: m') ∧ rstripSlash mp ≠ []

theorem lastPathComponent_ne_nil (mp : List Char) (hne : rstripSlash mp ≠ []) :
    lastPathComponent mp ≠ [] := by
  rcases rstripSlash_last mp with h0 | ⟨l', c, hl, hc⟩
  · exact absurd h0 hne
  · unfold lastPathComponent revLastComp
    rw [hl, List.reverse_append, List.reverse_singleton, List.singleton_append,
      List.takeWhile_cons, if_pos (by simp [notSlash, hc])]
    simp

/-- C2: `detect_zfs` coincides with the claim's case analysis — primary probe
reporting ZFS yields true; probe failure or timeout (bounded by 5s) is
inconclusive and falls through; the fallback applies only under
`'/mnt/user/'`, extracts the share name as the component after the mount
root, and matches ZFS mount-table entries by final mountpoint component;
false in every other case — for every mount table whose ZFS-typed entries
have absolute mountpoints other than `/` itself (entries of other filesystem
types, such as the ubiquitous root entry, are unconstrained). -/
theorem c2_detect_zfs_matches_claim (probe : ProbeResult)
    (mounts : Option (List (List (List Char)))) (path : List Char)
    (hwf : WFMountTable mounts) :
    detect_zfs probe mounts path = detect_zfs_claim probe mounts path ∧
      df_timeout_seconds ≤ 5 := by
  refine ⟨?_, Nat.le_refl 5⟩
  unfold detect_zfs detect_zfs_claim
  cases hp : df_probe_reports_zfs probe
  · simp only [Bool.false_eq_true, if_false]
    by_cases hu : startswith unionRoot path = true
    · obtain ⟨rest, rfl⟩ := (startswith_iff unionRoot path).mp hu
      have hdrop : (unionRoot ++ rest).drop unionRoot.length = rest := by simp
      by_cases hq : rstripSlash rest = []
      · -- the suffix after the root is all slashes: no share component exists
        have hstrip : rstripSlash (unionRoot ++ rest) = rstripSlash unionRoot := by
          rw [rstripSlash_append, if_pos hq]
        have hcode : (splitSlash (rstripSlash (unionRoot ++ rest))).drop 3 = [] := by
          rw [hstrip]; decide
        have hshare : rest.takeWhile notSlash = [] :=
          takeWhile_all_slash rest ((rstripSlash_eq_nil rest).mp hq)
        rw [if_pos hu, if_pos hu, hcode, hdrop, hshare]
        cases hm : mounts with
        | none => rfl
        | some lines =>
          simp only []
          symm
          rw [Bool.eq_false_iff]
          intro hany
          rw [List.any_eq_true] at hany
          obtain ⟨fields, hmem, hfe⟩ := hany
          rcases fields with _ | ⟨dev, _ | ⟨mp, _ | ⟨fs, rest2⟩⟩⟩ <;> simp at hfe
          obtain ⟨hfs, hlast⟩ := hfe
          subst hfs
          obtain ⟨_, hne⟩ := (hwf lines hm _ hmem dev mp rest2 rfl)
          exact lastPathComponent_ne_nil mp hne (by simpa using hlast)
      · -- a genuine share component follows the root
        have hstrip : rstripSlash (unionRoot ++ rest) = unionRoot ++ rstripSlash rest := by
          rw [rstripSlash_append, if_neg hq]
        have hdecomp : unionRoot ++ rstripSlash rest =
            '/' :: ("mnt".toList ++ '/' :: ("user".toList ++ '/' :: rstripSlash rest)) := rfl
        have hsplit0 : ∀ X : List Char, splitSlash ('/' :: X) = [] :: splitSlash X :=
          fun X => by simp [splitSlash]
        have hsplitQ : splitSlash (unionRoot ++ rstripSlash rest) =
            [] :: "mnt".toList :: "user".toList :: splitSlash (rstripSlash rest) := by
          rw [hdecomp, hsplit0, splitSlash_seg "mnt".toList _ (by decide),
            splitSlash_seg "user".toList _ (by decide)]
        rcases hsp : splitSlash (rstripSlash rest) with _ | ⟨h, t⟩
        · exact absurd hsp (splitSlash_ne_nil _)
        · have hh : h = rest.takeWhile notSlash := by
            have hhead := splitSlash_headD (rstripSlash rest)
            rw [hsp] at hhead
            simp only [List.headD_cons] at hhead
            rw [hhead, takeWhile_rstripSlash]
          have hcode : (splitSlash (rstripSlash (unionRoot ++ rest))).drop 3 = h :: t := by
            rw [hstrip, hsplitQ, hsp]; rfl
          rw [if_pos hu, if_pos hu, hcode, hdrop, ← hh]
          unfold check_zfs_mount_for_share
          cases hm : mounts with
          | none => rfl
          | some lines =>
            simp only []
            apply any_congr_mem
            intro fields hmem
            rcases fields with _ | ⟨dev, _ | ⟨mp, _ | ⟨fs, rest2⟩⟩⟩
            · rfl
            · rfl
            · rfl
            · have hsh : ∀ c ∈ h, c ≠ '/' := by
                rw [hh]
                intro c hc
                have hns := List.mem_takeWhile_imp hc
                simpa [notSlash] using hns
              simp only []
              cases hfz : (fs == zfsStr)
              · simp
              · have hfs : fs = zfsStr := by simpa using hfz
                subst hfs
                obtain ⟨habs, hne⟩ := hwf lines hm _ hmem dev mp rest2 rfl
                have hiff := match_condition_iff h mp hsh habs hne
                simp only [Bool.true_and]
                rw [Bool.eq_iff_iff, hiff, beq_iff_eq]
    · rw [if_neg hu, if_neg hu]
  · simp

/-- C2 witness: the theorem applied to a realistic concrete mount table —
including the root entry `/` of a non-ZFS type — and a probe that timed out,
with the fallback matching the `media` share. -/
theorem c2_witness :
    detect_zfs ProbeResult.timedOut
        (some [["rootfs".toList, "/".toList, "tmpfs".toList],
          ["cachepool/media".toList, "/mnt/cachepool/media".toList, "zfs".toList]])
        "/mnt/user/media/movie.mkv".toList =
      detect_zfs_claim ProbeResult.timedOut
        (some [["rootfs".toList, "/".toList, "tmpfs".toList],
          ["cachepool/media".toList, "/mnt/cachepool/media".toList, "zfs".toList]])
        "/mnt/user/media/movie.mkv".toList ∧
      df_timeout_seconds ≤ 5 :=
  c2_detect_zfs_matches_claim ProbeResult.timedOut
    (some [["rootfs".toList, "/".toList, "tmpfs".toList],
      ["cachepool/media".toList, "/mnt/cachepool/media".toList, "zfs".toList]])
    "/mnt/user/media/movie.mkv".toList
    (by intro lines hl fields hmem dev mp rest hfe
        cases hl
        rcases List.mem_cons.mp hmem with rfl | hmem2
        · injection hfe with h1 hfe2
          injection hfe2 with h2 hfe3
          injection hfe3 with h3 hfe4
          exact absurd h3 (by decide)
        · have hfq : fields =
              ["cachepool/media".toList, "/mnt/cachepool/media".toList, "zfs".toList] :=
            List.mem_singleton.mp hmem2
          subst hfq
          injection hfe with h1 hfe2
          injection hfe2 with h2 hfe3
          subst h2
          exact ⟨⟨"mnt/cachepool/media".toList, by decide⟩, by decide⟩)

/-! ## MaintenanceRunner (src/web/services/maintenance_runner.py)

The runner's mutable fields (`_state`, `_result`, `_stop_requested`) form the
state; every method is a state transformer.  All reads/writes of these fields
happen under the slot's single mutex in the source, so each method body is one
atomic step here.  `datetime.now()` / `time.time()` values are supplied as
`Nat` parameters.  The sibling `OperationRunner` (not part of the supplied
sources) is consulted only through its `is_running` flag, passed as the
`sibling_running` parameter. -/

/-- Enum `MaintenanceState` (src/web/services/maintenance_runner.py:34-39). -/
inductive MaintenanceState where
  | IDLE
  | RUNNING
  | COMPLETED
  | FAILED
deriving DecidableEq

/-- String `.value` of the `str`-valued enum members. -/
def MaintenanceState.value : MaintenanceState → String
  | .IDLE => "idle"
  | .RUNNING => "running"
  | .COMPLETED => "completed"
  | .FAILED => "failed"

/-- Modelled from the spec: `ActionResult` lives in
`web/services/maintenance_service.py`, which is not among the supplied
sources.  The spec's status section (§4.4) names exactly the fields the
runner reads — message, success, affected-count, error list — so it is
modelled as that record.  As a plain dataclass instance it is always truthy
in `if result.action_result:`. -/
structure ActionResult where
  message : String
  success : Bool
  affected_count : Nat
  errors : List String
deriving DecidableEq

/-- Dataclass `MaintenanceResult` (src/web/services/maintenance_runner.py:42-53),
with its field defaults. -/
structure MaintenanceResult where
  state : MaintenanceState
  action_name : String := ""
  action_display : String := ""
  started_at : Option Nat := none
  completed_at : Option Nat := none
  duration_seconds : Nat := 0
  action_result : Option ActionResult := none
  error_message : Option String := none
  file_count : Nat := 0
deriving DecidableEq

/-- The mutable fields of a `MaintenanceRunner` slot
(src/web/services/maintenance_runner.py:63-68), initialised to IDLE / no
result / stop flag clear. -/
structure MaintenanceRunner where
  state : MaintenanceState := MaintenanceState.IDLE
  result : Option MaintenanceResult := none
  stop_requested : Bool := false
deriving DecidableEq

/-- `ACTION_DISPLAY.get(action_name, "Running maintenance action...")
.format(count=file_count)` (src/web/services/maintenance_runner.py:25-31,128-129). -/
def ACTION_DISPLAY_format (action_name : String) (count : Nat) : String :=
  if action_name = "protect-with-backup" then
    "Keeping " ++ toString count ++ " file(s) on cache..."
  else if action_name = "sync-to-array" then
    "Moving " ++ toString count ++ " file(s) to array..."
  else if action_name = "fix-with-backup" then
    "Fixing " ++ toString count ++ " file(s) with backup..."
  else if action_name = "restore-plexcached" then
    "Restoring " ++ toString count ++ " backup(s)..."
  else if action_name = "delete-plexcached" then
    "Deleting " ++ toString count ++ " backup(s)..."
  else "Running maintenance action..."

/-- Embedding of `MaintenanceRunner.start_action`
(src/web/services/maintenance_runner.py:89-150): reject while the sibling
`OperationRunner` is running, reject while this slot is RUNNING, otherwise
set RUNNING, clear the stop flag, and store a fresh result record stamped
with the start time and display string. -/
def start_action (sibling_running : Bool) (action_name : String) (file_count : Nat)
    (now : Nat) (r : MaintenanceRunner) : Bool × MaintenanceRunner :=
  if sibling_running then (false, r)
  else if r.state = MaintenanceState.RUNNING then (false, r)
  else
    (true,
      { state := MaintenanceState.RUNNING
        stop_requested := false
        result := some
          { state := MaintenanceState.RUNNING
            action_name := action_name
            action_display := ACTION_DISPLAY_format action_name file_count
            started_at := some now
            file_count := file_count } })

/-- Embedding of `MaintenanceRunner.stop_action`
(src/web/services/maintenance_runner.py:152-164). -/
def stop_action (r : MaintenanceRunner) : Bool × MaintenanceRunner :=
  if r.state = MaintenanceState.RUNNING then
    (true, { r with stop_requested := true })
  else (false, r)

/-- Embedding of `MaintenanceRunner.dismiss`
(src/web/services/maintenance_runner.py:166-173): COMPLETED/FAILED go back to
IDLE; the stored result is kept but its `state` field is updated to IDLE. -/
def dismiss (r : MaintenanceRunner) : MaintenanceRunner :=
  if r.state = MaintenanceState.COMPLETED ∨ r.state = MaintenanceState.FAILED then
    { r with
      state := MaintenanceState.IDLE
      result := r.result.map (fun res => { res with state := MaintenanceState.IDLE }) }
  else r

/-- Embedding of the worker body `MaintenanceRunner._run_action`
(src/web/services/maintenance_runner.py:175-221).  `outcome` is the service
method's behaviour: `Except.ok a` when it returned `a`, `Except.error msg`
when it raised an exception `e` with `str(e) = msg`.  The returned `Nat`
counts invocations of the `on_complete` callback; `callback_raises` records
whether that callback raised (the source catches and logs such an exception
after the state was already written under the lock, so it cannot influence
the returned runner — which the parameter's irrelevance makes provable).
When `r.result` is `none` the field assignments in the `finally` block raise
`AttributeError`, aborting the worker thread before any state change or
callback.  Note `if error_message:` on line 208 is a Python truthiness test:
it is false for the empty string, not only for `None`. -/
def run_action (outcome : Except String ActionResult) (has_callback : Bool)
    (_callback_raises : Bool) (now duration : Nat) (r : MaintenanceRunner) :
    MaintenanceRunner × Nat :=
  match r.result with
  | none => (r, 0)
  | some res =>
    let res1 : MaintenanceResult :=
      { res with
        completed_at := some now
        duration_seconds := duration
        action_result := match outcome with | .ok a => some a | .error _ => none }
    let r' : MaintenanceRunner :=
      match outcome with
      | .error msg =>
        if msg = "" then
          { r with
            state := MaintenanceState.COMPLETED
            result := some { res1 with state := MaintenanceState.COMPLETED } }
        else
          { r with
            state := MaintenanceState.FAILED
            result := some { res1 with
              state := MaintenanceState.FAILED
              error_message := some msg } }
      | .ok _ =>
        { r with
          state := MaintenanceState.COMPLETED
          result := some { res1 with state := MaintenanceState.COMPLETED } }
    (r', if has_callback then 1 else 0)

/-- The dictionary returned by `get_status_dict`
(src/web/services/maintenance_runner.py:223-252); a key absent from the
Python dict is `none` here. -/
structure StatusDict where
  state : String
  is_running : Bool
  action_name : Option String := none
  action_display : Option String := none
  started_at : Option Nat := none
  completed_at : Option Nat := none
  duration_seconds : Option Nat := none
  file_count : Option Nat := none
  error_message : Option String := none
  result_message : Option String := none
  result_success : Option Bool := none
  affected_count : Option Nat := none
  errors : Option (List String) := none
deriving DecidableEq

/-- The minimal dictionary returned while the slot shows no result
(src/web/services/maintenance_runner.py:227-231). -/
def idleStatus : StatusDict := { state := "idle", is_running := false }

/-- Embedding of `MaintenanceRunner.get_status_dict`
(src/web/services/maintenance_runner.py:223-252). -/
def get_status_dict (r : MaintenanceRunner) : StatusDict :=
  match r.result with
  | none => idleStatus
  | some res =>
    if r.state = MaintenanceState.IDLE then idleStatus
    else
      { state := res.state.value
        is_running := decide (res.state = MaintenanceState.RUNNING)
        action_name := some res.action_name
        action_display := some res.action_display
        started_at := res.started_at
        completed_at := res.completed_at
        duration_seconds := some res.duration_seconds
        file_count := some res.file_count
        error_message := res.error_message
        result_message := res.action_result.map ActionResult.message
        result_success := res.action_result.map ActionResult.success
        affected_count := res.action_result.map ActionResult.affected_count
        errors := res.action_result.map ActionResult.errors }

/-- C3: while the sibling operation slot is running, or while this slot is
itself RUNNING, `start_action` returns false and leaves the slot's state,
stored result and stop flag exactly as they were. -/
theorem c3_start_action_rejects (r : MaintenanceRunner) (sib : Bool)
    (name : String) (fc now : Nat)
    (h : sib = true ∨ r.state = MaintenanceState.RUNNING) :
    (start_action sib name fc now r).1 = false ∧
      (start_action sib name fc now r).2 = r := by
  rcases h with rfl | hr
  · simp [start_action]
  · cases sib <;> simp [start_action, hr]

/-- C3 witness: a rejected start on a concrete RUNNING slot. -/
theorem c3_witness :
    (false = true ∨
        (⟨MaintenanceState.RUNNING, none, false⟩ : MaintenanceRunner).state =
          MaintenanceState.RUNNING) ∧
      ((start_action false "sync-to-array" 2 7
          ⟨MaintenanceState.RUNNING, none, false⟩).1 = false ∧
        (start_action false "sync-to-array" 2 7
            ⟨MaintenanceState.RUNNING, none, false⟩).2 =
          ⟨MaintenanceState.RUNNING, none, false⟩) :=
  ⟨Or.inr rfl,
    c3_start_action_rejects ⟨MaintenanceState.RUNNING, none, false⟩ false
      "sync-to-array" 2 7 (Or.inr rfl)⟩

/-- C4 counterexample: starting an action and letting the work function raise
an exception whose message is the empty string (`raise ValueError()` gives
`str(e) == ''`) leaves the slot COMPLETED, not FAILED as the claim requires —
`if error_message:` is a truthiness test that is false for `''`. -/
theorem c4_counterexample :
    ¬ ((run_action (Except.error "") true false 9 4
          (start_action false "sync-to-array" 1 5 {}).2).1.state =
        MaintenanceState.FAILED) := by
  decide

/-- C4 (amended): after the worker for any started action finishes, the
slot's state is exactly COMPLETED or FAILED — never IDLE; it is FAILED, with
the exception's message stored as the result's `error_message`, precisely
when the work function raised with a non-empty message; it is COMPLETED in
every other case, including an honoured stop with no error and the
empty-message exception; only a subsequent `dismiss` returns the slot to
IDLE. -/
theorem c4_terminal_state (r : MaintenanceRunner) (res : MaintenanceResult)
    (outcome : Except String ActionResult) (has_cb cb : Bool) (now dur : Nat)
    (h : r.result = some res) :
    ((run_action outcome has_cb cb now dur r).1.state = MaintenanceState.COMPLETED ∨
      (run_action outcome has_cb cb now dur r).1.state = MaintenanceState.FAILED) ∧
    (run_action outcome has_cb cb now dur r).1.state ≠ MaintenanceState.IDLE ∧
    ((run_action outcome has_cb cb now dur r).1.state = MaintenanceState.FAILED ↔
      ∃ m, outcome = Except.error m ∧ m ≠ "") ∧
    (∀ m, outcome = Except.error m → m ≠ "" →
      ∃ res', (run_action outcome has_cb cb now dur r).1.result = some res' ∧
        res'.error_message = some m ∧ res'.state = MaintenanceState.FAILED) ∧
    (dismiss (run_action outcome has_cb cb now dur r).1).state =
      MaintenanceState.IDLE := by
  cases outcome with
  | ok a =>
    refine ⟨Or.inl (by simp [run_action, h]), by simp [run_action, h], ?_, ?_, ?_⟩
    · simp [run_action, h]
    · intro m hm; exact absurd hm (by simp)
    · simp [run_action, h, dismiss]
  | error msg =>
    by_cases hmsg : msg = ""
    · subst hmsg
      refine ⟨Or.inl (by simp [run_action, h]), by simp [run_action, h], ?_, ?_, ?_⟩
      · simp [run_action, h]
      · intro m hm hne
        injection hm with hm'
        exact absurd hm'.symm hne
      · simp [run_action, h, dismiss]
    · refine ⟨Or.inr (by simp [run_action, h, hmsg]), by simp [run_action, h, hmsg],
        ?_, ?_, ?_⟩
      · simp only [run_action, h]
        simp [hmsg]
      · intro m hm hne
        injection hm with hm'
        subst hm'
        refine ⟨{ res with
            state := MaintenanceState.FAILED
            completed_at := some now
            duration_seconds := dur
            action_result := none
            error_message := some msg }, ?_, rfl, rfl⟩
        simp [run_action, h, hmsg]
      · simp [run_action, h, hmsg, dismiss]

/-- C4 witness: the amended theorem applied to a concrete started slot whose
work raised `RuntimeError('disk full')`. -/
theorem c4_witness :
    ((start_action false "sync-to-array" 1 5 {}).2.result =
        some { state := MaintenanceState.RUNNING, action_name := "sync-to-array",
               action_display := ACTION_DISPLAY_format "sync-to-array" 1,
               started_at := some 5, file_count := 1 }) ∧
      (((run_action (Except.error "disk full") true false 9 4
            (start_action false "sync-to-array" 1 5 {}).2).1.state =
              MaintenanceState.COMPLETED ∨
          (run_action (Except.error "disk full") true false 9 4
            (start_action false "sync-to-array" 1 5 {}).2).1.state =
              MaintenanceState.FAILED) ∧
        (run_action (Except.error "disk full") true false 9 4
          (start_action false "sync-to-array" 1 5 {}).2).1.state ≠
            MaintenanceState.IDLE ∧
        ((run_action (Except.error "disk full") true false 9 4
            (start_action false "sync-to-array" 1 5 {}).2).1.state =
              MaintenanceState.FAILED ↔
          ∃ m, (Except.error "disk full" : Except String ActionResult) =
              Except.error m ∧ m ≠ "") ∧
        (∀ m, (Except.error "disk full" : Except String ActionResult) =
              Except.error m → m ≠ "" →
          ∃ res', (run_action (Except.error "disk full") true false 9 4
              (start_action false "sync-to-array" 1 5 {}).2).1.result = some res' ∧
            res'.error_message = some m ∧ res'.state = MaintenanceState.FAILED) ∧
        (dismiss (run_action (Except.error "disk full") true false 9 4
            (start_action false "sync-to-array" 1 5 {}).2).1).state =
          MaintenanceState.IDLE) :=
  ⟨rfl,
    c4_terminal_state (start_action false "sync-to-array" 1 5 {}).2
      { state := MaintenanceState.RUNNING, action_name := "sync-to-array",
        action_display := ACTION_DISPLAY_format "sync-to-array" 1,
        started_at := some 5, file_count := 1 }
      (Except.error "disk full") true false 9 4 rfl⟩

/-- C5: when an `on_complete` callback is supplied, the worker invokes it
exactly once, whether the work function returned or raised; the runner state
it leaves behind is the same whether or not the callback itself raises (the
terminal state and stored result were already written and are not altered),
and that state is terminal (COMPLETED or FAILED). -/
theorem c5_callback_once (r : MaintenanceRunner) (res : MaintenanceResult)
    (outcome : Except String ActionResult) (cb : Bool) (now dur : Nat)
    (h : r.result = some res) :
    (run_action outcome true cb now dur r).2 = 1 ∧
    (run_action outcome true cb now dur r).1 =
      (run_action outcome true false now dur r).1 ∧
    ((run_action outcome true cb now dur r).1.state = MaintenanceState.COMPLETED ∨
      (run_action outcome true cb now dur r).1.state = MaintenanceState.FAILED) := by
  refine ⟨by simp [run_action, h], rfl, ?_⟩
  cases outcome with
  | ok a => exact Or.inl (by simp [run_action, h])
  | error msg =>
    by_cases hmsg : msg = ""
    · exact Or.inl (by simp [run_action, h, hmsg])
    · exact Or.inr (by simp [run_action, h, hmsg])

/-- C5 witness: the theorem applied to a concrete started slot whose work
raised, with a raising callback. -/
theorem c5_witness :
    ((start_action false "delete-plexcached" 3 2 {}).2.result =
        some { state := MaintenanceState.RUNNING, action_name := "delete-plexcached",
               action_display := ACTION_DISPLAY_format "delete-plexcached" 3,
               started_at := some 2, file_count := 3 }) ∧
      ((run_action (Except.error "boom") true true 8 6
          (start_action false "delete-plexcached" 3 2 {}).2).2 = 1 ∧
        (run_action (Except.error "boom") true true 8 6
            (start_action false "delete-plexcached" 3 2 {}).2).1 =
          (run_action (Except.error "boom") true false 8 6
            (start_action false "delete-plexcached" 3 2 {}).2).1 ∧
        ((run_action (Except.error "boom") true true 8 6
            (start_action false "delete-plexcached" 3 2 {}).2).1.state =
              MaintenanceState.COMPLETED ∨
          (run_action (Except.error "boom") true true 8 6
            (start_action false "delete-plexcached" 3 2 {}).2).1.state =
              MaintenanceState.FAILED)) :=
  ⟨rfl,
    c5_callback_once (start_action false "delete-plexcached" 3 2 {}).2
      { state := MaintenanceState.RUNNING, action_name := "delete-plexcached",
        action_display := ACTION_DISPLAY_format "delete-plexcached" 3,
        started_at := some 2, file_count := 3 }
      (Except.error "boom") true 8 6 rfl⟩

/-- C6 counterexample: dismissing a concrete COMPLETED slot retains the last
result internally, but the status snapshot no longer shows it — once the
runner state is IDLE, `get_status_dict` returns the minimal idle dictionary,
so the retained result is not "visible through the status snapshot". -/
theorem c6_counterexample :
    ((dismiss
        ⟨MaintenanceState.COMPLETED,
          some { state := MaintenanceState.COMPLETED, action_name := "sync-to-array",
                 started_at := some 1, completed_at := some 3 },
          false⟩).result ≠ none) ∧
      (get_status_dict
          ⟨MaintenanceState.COMPLETED,
            some { state := MaintenanceState.COMPLETED, action_name := "sync-to-array",
                   started_at := some 1, completed_at := some 3 },
            false⟩).action_name = some "sync-to-array" ∧
      ¬ ((get_status_dict (dismiss
            ⟨MaintenanceState.COMPLETED,
              some { state := MaintenanceState.COMPLETED, action_name := "sync-to-array",
                     started_at := some 1, completed_at := some 3 },
              false⟩)).action_name = some "sync-to-array") := by
  refine ⟨by decide, by decide, by decide⟩

/-- C6 (amended): `dismiss` transitions COMPLETED or FAILED back to IDLE and
is a no-op from IDLE and from RUNNING; the last result is retained internally
(stored with its state field set to IDLE) until the next successful `start`
replaces it with a fresh record — but it is not visible through the status
snapshot: once the slot is IDLE, `get_status_dict` returns only the minimal
idle status. -/
theorem c6_dismiss_behavior (r : MaintenanceRunner) :
    ((r.state = MaintenanceState.COMPLETED ∨ r.state = MaintenanceState.FAILED) →
      (dismiss r).state = MaintenanceState.IDLE ∧
      (dismiss r).result =
        r.result.map (fun res => { res with state := MaintenanceState.IDLE }) ∧
      get_status_dict (dismiss r) = idleStatus) ∧
    (r.state = MaintenanceState.IDLE → dismiss r = r) ∧
    (r.state = MaintenanceState.RUNNING → dismiss r = r) ∧
    (∀ name fc now, (start_action false name fc now (dismiss r)).1 = true →
      (start_action false name fc now (dismiss r)).2.result =
        some { state := MaintenanceState.RUNNING
               action_name := name
               action_display := ACTION_DISPLAY_format name fc
               started_at := some now
               file_count := fc }) := by
  refine ⟨fun h => ?_, fun h => ?_, fun h => ?_, fun name fc now hs => ?_⟩
  · have hd : (dismiss r).state = MaintenanceState.IDLE := by
      simp [dismiss, h]
    refine ⟨hd, by simp [dismiss, h], ?_⟩
    unfold get_status_dict
    cases hres : (dismiss r).result with
    | none => rfl
    | some res => simp [hd]
  · simp [dismiss, h]
  · simp [dismiss, h]
  · by_cases hrun : (dismiss r).state = MaintenanceState.RUNNING
    · simp [start_action, hrun] at hs
    · simp [start_action, hrun]

/-- C6 witness: the first and last conjuncts evaluated on a concrete FAILED
slot, which a dismiss returns to IDLE and a following start restocks. -/
theorem c6_witness :
    ((⟨MaintenanceState.FAILED,
        some { state := MaintenanceState.FAILED, error_message := some "oops" },
        false⟩ : MaintenanceRunner).state = MaintenanceState.COMPLETED ∨
      (⟨MaintenanceState.FAILED,
        some { state := MaintenanceState.FAILED, error_message := some "oops" },
        false⟩ : MaintenanceRunner).state = MaintenanceState.FAILED) ∧
      ((dismiss
          ⟨MaintenanceState.FAILED,
            some { state := MaintenanceState.FAILED, error_message := some "oops" },
            false⟩).state = MaintenanceState.IDLE ∧
        (dismiss
            ⟨MaintenanceState.FAILED,
              some { state := MaintenanceState.FAILED, error_message := some "oops" },
              false⟩).result =
          (⟨MaintenanceState.FAILED,
              some { state := MaintenanceState.FAILED, error_message := some "oops" },
              false⟩ : MaintenanceRunner).result.map
            (fun res => { res with state := MaintenanceState.IDLE }) ∧
        get_status_dict (dismiss
            ⟨MaintenanceState.FAILED,
              some { state := MaintenanceState.FAILED, error_message := some "oops" },
              false⟩) = idleStatus) :=
  ⟨Or.inr rfl,
    (c6_dismiss_behavior
        ⟨MaintenanceState.FAILED,
          some { state := MaintenanceState.FAILED, error_message := some "oops" },
          false⟩).1 (Or.inr rfl)⟩

/-- Consistency between the runner's own state field and the state recorded
in its stored result (C10's invariant). -/
def result_state_consistent (r : MaintenanceRunner) : Prop :=
  ∀ res, r.result = some res → res.state = r.state

/-- C10: whenever the stored result is non-`None`, its state field equals the
runner's state; this invariant is preserved by `start_action`, `stop_action`,
`dismiss` and worker completion. -/
theorem c10_result_state_invariant (r : MaintenanceRunner)
    (h : result_state_consistent r) :
    (∀ sib name fc now, result_state_consistent (start_action sib name fc now r).2) ∧
    result_state_consistent (stop_action r).2 ∧
    result_state_consistent (dismiss r) ∧
    (∀ outcome has_cb cb now dur,
      result_state_consistent (run_action outcome has_cb cb now dur r).1) := by
  refine ⟨fun sib name fc now => ?_, ?_, ?_, fun outcome has_cb cb now dur => ?_⟩
  · cases sib with
    | true => simpa [start_action] using h
    | false =>
      by_cases hr : r.state = MaintenanceState.RUNNING
      · simpa [start_action, hr] using h
      · intro res hres
        simp [start_action, hr] at hres
        simp [start_action, hr, ← hres]
  · by_cases hr : r.state = MaintenanceState.RUNNING
    · intro res hres
      simp [stop_action, hr] at hres ⊢
      exact (h res hres).trans hr
    · simpa [stop_action, hr] using h
  · by_cases hd : r.state = MaintenanceState.COMPLETED ∨ r.state = MaintenanceState.FAILED
    · intro res hres
      simp only [dismiss, if_pos hd] at hres ⊢
      simp only [Option.map_eq_some'] at hres
      obtain ⟨res0, _, hres0⟩ := hres
      simp [← hres0]
    · simpa [dismiss, hd] using h
  · cases hres : r.result with
    | none => simpa [run_action, hres] using h
    | some res0 =>
      intro res hres'
      cases outcome with
      | ok a =>
        simp [run_action, hres] at hres' ⊢
        simp [← hres']
      | error msg =>
        by_cases hmsg : msg = ""
        · simp [run_action, hres, hmsg] at hres' ⊢
          simp [← hres']
        · simp [run_action, hres, hmsg] at hres' ⊢
          simp [← hres']

/-- C10 witness: the invariant propagated through each operation on a
concrete COMPLETED slot that satisfies it. -/
theorem c10_witness :
    result_state_consistent
        ⟨MaintenanceState.COMPLETED,
          some { state := MaintenanceState.COMPLETED, action_name := "fix-with-backup" },
          false⟩ ∧
      ((∀ sib name fc now,
          result_state_consistent (start_action sib name fc now
            ⟨MaintenanceState.COMPLETED,
              some { state := MaintenanceState.COMPLETED, action_name := "fix-with-backup" },
              false⟩).2) ∧
        result_state_consistent (stop_action
          ⟨MaintenanceState.COMPLETED,
            some { state := MaintenanceState.COMPLETED, action_name := "fix-with-backup" },
            false⟩).2 ∧
        result_state_consistent (dismiss
          ⟨MaintenanceState.COMPLETED,
            some { state := MaintenanceState.COMPLETED, action_name := "fix-with-backup" },
            false⟩) ∧
        (∀ outcome has_cb cb now dur,
          result_state_consistent (run_action outcome has_cb cb now dur
            ⟨MaintenanceState.COMPLETED,
              some { state := MaintenanceState.COMPLETED, action_name := "fix-with-backup" },
              false⟩).1)) :=
  ⟨fun res hres => by simp at hres; simp [← hres],
    c10_result_state_invariant
      ⟨MaintenanceState.COMPLETED,
        some { state := MaintenanceState.COMPLETED, action_name := "fix-with-backup" },
        false⟩
      (fun res hres => by simp at hres; simp [← hres])⟩

/-- States of a `MaintenanceRunner` slot reachable from the freshly
constructed runner through its operations (in any order and with any
arguments, a superset of the schedules real threads can produce). -/
inductive Reachable : MaintenanceRunner → Prop where
  | init : Reachable {}
  | start (sib : Bool) (name : String) (fc now : Nat) {r : MaintenanceRunner} :
      Reachable r → Reachable (start_action sib name fc now r).2
  | stop {r : MaintenanceRunner} : Reachable r → Reachable (stop_action r).2
  | dism {r : MaintenanceRunner} : Reachable r → Reachable (dismiss r)
  | finish (outcome : Except String ActionResult) (has_cb cb : Bool) (now dur : Nat)
      {r : MaintenanceRunner} :
      Reachable r → Reachable (run_action outcome has_cb cb now dur r).1

/-- Invariant of reachable runner states: the stored result's state mirrors
the runner's state, and a runner with no result record is IDLE. -/
theorem reachable_inv {r : MaintenanceRunner} (h : Reachable r) :
    result_state_consistent r ∧ (r.result = none → r.state = MaintenanceState.IDLE) := by
  induction h with
  | init => exact ⟨fun res hres => by simp at hres, fun _ => rfl⟩
  | @start sib name fc now r0 hr ih =>
    refine ⟨(c10_result_state_invariant _ ih.1).1 sib name fc now, ?_⟩
    cases sib with
    | true => simpa [start_action] using ih.2
    | false =>
      by_cases hrun : r0.state = MaintenanceState.RUNNING
      · simpa [start_action, hrun] using ih.2
      · intro hres
        simp [start_action, hrun] at hres
  | @stop r0 hr ih =>
    refine ⟨(c10_result_state_invariant _ ih.1).2.1, ?_⟩
    by_cases hrun : r0.state = MaintenanceState.RUNNING
    · intro hres
      simp [stop_action, hrun] at hres
      exact absurd (ih.2 hres) (by rw [hrun]; intro hc; cases hc)
    · simpa [stop_action, hrun] using ih.2
  | @dism r0 hr ih =>
    refine ⟨(c10_result_state_invariant _ ih.1).2.2.1, ?_⟩
    by_cases hd : r0.state = MaintenanceState.COMPLETED ∨ r0.state = MaintenanceState.FAILED
    · intro _; simp [dismiss, hd]
    · simpa [dismiss, hd] using ih.2
  | @finish outcome has_cb cb now dur r0 hr ih =>
    refine ⟨(c10_result_state_invariant _ ih.1).2.2.2 outcome has_cb cb now dur, ?_⟩
    cases hres : r0.result with
    | none => simpa [run_action, hres] using ih.2
    | some res0 =>
      intro hres'
      cases outcome with
      | ok a => simp [run_action, hres] at hres'
      | error msg =>
        by_cases hmsg : msg = "" <;> simp [run_action, hres, hmsg] at hres'

/-- C8: in every reachable state of the runner, the status snapshot's
`is_running` entry is true exactly when the slot's state is RUNNING. -/
theorem c8_is_running_iff (r : MaintenanceRunner) (h : Reachable r) :
    ((get_status_dict r).is_running = true ↔ r.state = MaintenanceState.RUNNING) := by
  obtain ⟨h1, h2⟩ := reachable_inv h
  unfold get_status_dict
  cases hres : r.result with
  | none =>
    rw [h2 hres]
    simp [idleStatus]
  | some res =>
    have hst := h1 res hres
    by_cases hi : r.state = MaintenanceState.IDLE
    · simp [hi, idleStatus]
    · simp [hi, hst]

/-- C8 witness: the equivalence evaluated on the concrete runner reached by
one successful start from the initial state. -/
theorem c8_witness :
    ((get_status_dict (start_action false "protect-with-backup" 4 3 {}).2).is_running =
        true ↔
      (start_action false "protect-with-backup" 4 3
          ({} : MaintenanceRunner)).2.state = MaintenanceState.RUNNING) :=
  c8_is_running_iff (start_action false "protect-with-backup" 4 3 {}).2
    (Reachable.start false "protect-with-backup" 4 3 Reachable.init)

/-! ## SingleInstanceLock (src/system_utils.py:134-191)

The handle's mutable fields are `lock_fd` (an open file descriptor or
`None`) and `locked`.  The OS calls of `acquire` are modelled by an
environment: the outcome of `open(self.lock_file, 'w')`, whether the
non-blocking `flock` raises because the lock is already held, and whether the
PID write/flush succeeds. -/

/-- Mutable fields of `SingleInstanceLock` (src/system_utils.py:142-145). -/
structure SingleInstanceLock where
  lock_fd : Option Nat := none
  locked : Bool := false
deriving DecidableEq

/-- Outcomes of the OS calls made by one `acquire` attempt. -/
structure AcquireEnv where
  openResult : Except Unit Nat
  flockHeld : Bool
  writeOk : Bool

/-- Embedding of `SingleInstanceLock.acquire` (src/system_utils.py:147-173).
Every raised `IOError`/`OSError` is caught by the handler, which closes and
clears `self.lock_fd` (note: when `open` itself raised, the assignment to
`self.lock_fd` never ran, so the handler closes whatever descriptor the
handle held before) and returns `False`; the handler never touches
`self.locked`.  The function is total — no exception escapes. -/
def acquire (env : AcquireEnv) (s : SingleInstanceLock) : Bool × SingleInstanceLock :=
  match env.openResult with
  | .error _ => (false, { s with lock_fd := none })
  | .ok fd =>
    if env.flockHeld then (false, { s with lock_fd := none })
    else if !env.writeOk then (false, { s with lock_fd := none })
    else (true, { lock_fd := some fd, locked := true })

/-- C7 counterexample: a second `acquire` on a handle already marked
`locked` (its first acquire succeeded, so the non-blocking `flock` on the
newly opened descriptor fails as already-held) returns false but leaves the
`locked` flag set — not cleared as the claim states. -/
theorem c7_counterexample :
    ¬ ((acquire ⟨Except.ok 4, true, true⟩
          ⟨some 3, true⟩).2.locked = false) := by
  decide

/-- C7 (amended): whenever the exclusive lock cannot be obtained because it
is already held, `acquire` returns false without raising and clears the
handle's file descriptor; the `locked` flag keeps its prior value — so for a
handle that did not already hold the lock (flag clear), both the flag and the
descriptor end up cleared, as the claim states. -/
theorem c7_acquire_already_held (s : SingleInstanceLock) (fd : Nat) (wr : Bool) :
    acquire ⟨Except.ok fd, true, wr⟩ s =
      (false, { lock_fd := none, locked := s.locked }) ∧
    (s.locked = false →
      acquire ⟨Except.ok fd, true, wr⟩ s = (false, { lock_fd := none, locked := false })) := by
  constructor
  · simp [acquire]
  · intro h
    simp [acquire, h]

/-- C7 witness: the amended theorem at a fresh handle (no lock held) whose
flock attempt fails. -/
theorem c7_witness :
    (acquire ⟨Except.ok 5, true, true⟩ ({} : SingleInstanceLock) =
        (false, { lock_fd := none, locked := ({} : SingleInstanceLock).locked }) ∧
      (({} : SingleInstanceLock).locked = false →
        acquire ⟨Except.ok 5, true, true⟩ ({} : SingleInstanceLock) =
          (false, { lock_fd := none, locked := false }))) ∧
      ({} : SingleInstanceLock).locked = false :=
  ⟨c7_acquire_already_held {} 5 true, rfl⟩

/-! ## FileUtils.copy_file_with_permissions (src/system_utils.py:294-330)

The OS steps of a copy are modelled by an environment recording each step's
outcome (`Except.error m` carries `str(e)` of the raised OS error).  The
process umask is threaded explicitly: `os.umask(0)` runs before `chmod` and
the original umask is restored after it — unless `chmod` raises, in which
case the restore is skipped. -/

/-- Outcomes of the OS calls made by one copy: `os.stat(src)`,
`shutil.copy2`, `os.chown`, `os.chmod`, and the verbose-only `os.stat(dest)`. -/
structure CopyEnv where
  stat_src : Except String Unit
  copy2 : Except String Unit
  chown : Except String Unit
  chmod : Except String Unit
  stat_dest : Except String Unit

/-- The wrapping applied by the `except` handler:
`raise RuntimeError(f"Error copying file: {str(e)}")` (src/system_utils.py:330). -/
def wrapCopyError (m : String) : String := "Error copying file: " ++ m

/-- Embedding of `FileUtils.copy_file_with_permissions`
(src/system_utils.py:294-330).  Returns the `Except`-wrapped result
(`.ok 0` on success, `.error` with the wrapped message when any step raised)
together with the process umask after the call (initially `umask0`; left at
`0` when `chmod` raises, because the restoring `os.umask(original_umask)` is
skipped by the exception). -/
def copy_file_with_permissions (is_linux verbose : Bool) (env : CopyEnv)
    (umask0 : Nat) : Except String Nat × Nat :=
  if is_linux then
    match env.stat_src with
    | .error m => (.error (wrapCopyError m), umask0)
    | .ok _ =>
      match env.copy2 with
      | .error m => (.error (wrapCopyError m), umask0)
      | .ok _ =>
        match env.chown with
        | .error m => (.error (wrapCopyError m), umask0)
        | .ok _ =>
          match env.chmod with
          | .error m => (.error (wrapCopyError m), 0)
          | .ok _ =>
            if verbose then
              match env.stat_dest with
              | .error m => (.error (wrapCopyError m), umask0)
              | .ok _ => (.ok 0, umask0)
            else (.ok 0, umask0)
  else
    match env.copy2 with
    | .error m => (.error (wrapCopyError m), umask0)
    | .ok _ => (.ok 0, umask0)

/-- C9: `copy_file_with_permissions` signals a transfer failure on any step
failure — source stat, content copy, ownership restore, or permission change
— by an error whose message wraps the underlying OS error's message as
context; it never returns normally after a failed step, and on full success
it returns 0. -/
theorem c9_copy_error_wrapping (verbose : Bool) (env : CopyEnv) (u : Nat) :
    (∀ m, env.stat_src = Except.error m →
      (copy_file_with_permissions true verbose env u).1 = Except.error (wrapCopyError m)) ∧
    (∀ m, env.stat_src = Except.ok () → env.copy2 = Except.error m →
      (copy_file_with_permissions true verbose env u).1 = Except.error (wrapCopyError m)) ∧
    (∀ m, env.stat_src = Except.ok () → env.copy2 = Except.ok () →
      env.chown = Except.error m →
      (copy_file_with_permissions true verbose env u).1 = Except.error (wrapCopyError m)) ∧
    (∀ m, env.stat_src = Except.ok () → env.copy2 = Except.ok () →
      env.chown = Except.ok () → env.chmod = Except.error m →
      (copy_file_with_permissions true verbose env u).1 = Except.error (wrapCopyError m)) ∧
    (∀ m, env.copy2 = Except.error m →
      (copy_file_with_permissions false verbose env u).1 = Except.error (wrapCopyError m)) ∧
    (∀ is_linux n, (copy_file_with_permissions is_linux verbose env u).1 = Except.ok n →
      n = 0) ∧
    (env.stat_src = Except.ok () → env.copy2 = Except.ok () → env.chown = Except.ok () →
      env.chmod = Except.ok () → (verbose = false ∨ env.stat_dest = Except.ok ()) →
      (copy_file_with_permissions true verbose env u).1 = Except.ok 0) := by
  obtain ⟨s1, s2, s3, s4, s5⟩ := env
  refine ⟨?_, ?_, ?_, ?_, ?_, ?_, ?_⟩
  · rintro m rfl; simp [copy_file_with_permissions]
  · rintro m rfl rfl; simp [copy_file_with_permissions]
  · rintro m rfl rfl rfl; simp [copy_file_with_permissions]
  · rintro m rfl rfl rfl rfl; simp [copy_file_with_permissions]
  · rintro m rfl; simp [copy_file_with_permissions]
  · intro is_linux n h
    cases is_linux with
    | false =>
      cases s2 with
      | error m => simp [copy_file_with_permissions] at h
      | ok v2 => simp [copy_file_with_permissions] at h; omega
    | true =>
      cases s1 with
      | error m => simp [copy_file_with_permissions] at h
      | ok v =>
        cases s2 with
        | error m => simp [copy_file_with_permissions] at h
        | ok v2 =>
          cases s3 with
          | error m => simp [copy_file_with_permissions] at h
          | ok v3 =>
            cases s4 with
            | error m => simp [copy_file_with_permissions] at h
            | ok v4 =>
              cases verbose with
              | false => simp [copy_file_with_permissions] at h; omega
              | true =>
                cases s5 with
                | error m => simp [copy_file_with_permissions] at h
                | ok v5 => simp [copy_file_with_permissions] at h; omega
  · rintro rfl rfl rfl rfl hv
    rcases hv with rfl | hv5
    · simp [copy_file_with_permissions]
    · cases verbose with
      | false => simp [copy_file_with_permissions]
      | true =>
        cases s5 with
        | error m => simp at hv5
        | ok v5 => simp [copy_file_with_permissions]

/-- C9 witness: the chown-failure and full-success conjuncts evaluated on
concrete environments. -/
theorem c9_witness :
    ((copy_file_with_permissions true false
          ⟨Except.ok (), Except.ok (), Except.error "permission denied",
            Except.ok (), Except.ok ()⟩ 18).1 =
        Except.error (wrapCopyError "permission denied")) ∧
      (copy_file_with_permissions true false
          ⟨Except.ok (), Except.ok (), Except.ok (), Except.ok (), Except.ok ()⟩
          18).1 = Except.ok 0 :=
  ⟨(c9_copy_error_wrapping false
        ⟨Except.ok (), Except.ok (), Except.error "permission denied",
          Except.ok (), Except.ok ()⟩ 18).2.2.1
      "permission denied" rfl rfl rfl,
    (c9_copy_error_wrapping false
        ⟨Except.ok (), Except.ok (), Except.ok (), Except.ok (), Except.ok ()⟩
        18).2.2.2.2.2.2 rfl rfl rfl rfl (Or.inl rfl)⟩

end PlexCache
